import Mathlib

/-!
Shallow embedding of `src/stateful_table.rs` from the `ratatui-helpers`
repository: the `Tabular` row contract, the `IndexedRow` decorator, and the
selection / sorting / navigation state machine of `StatefulTable`.

Machine integers (`usize`, `u16`) are modelled as `Nat`; Rust's
`saturating_sub` is Nat truncated subtraction, and plain `usize` subtraction
that can underflow (a panic in Rust) is modelled by returning `none` from the
enclosing operation.  `Ordering::Less/Equal/Greater` is Lean's
`Ordering.lt/.eq/.gt`.  Rust's stable `slice::sort_by` is modelled by a
stable insertion sort: for any comparator, a stable comparison sort's output
is determined by sortedness plus stability, so this is extensionally faithful.
-/

namespace RatatuiHelpers

/-- Models `ratatui::layout::Constraint` (only the shape matters here;
column-width policies map a computed width to one of these). -/
inductive Constraint where
  | length (n : Nat)
  | percentage (n : Nat)
  | minimum (n : Nat)
  | maximum (n : Nat)
  | fill (n : Nat)
deriving DecidableEq, Repr

/-- Models the `Tabular` trait of `src/stateful_table.rs` (the methods the
table's state machine consults; style/alignment/height accessors are not
needed by any state transition modelled here). `cmpByCol` is
`Tabular::cmp_by_col`, `value` is `Tabular::value`, `content` is
`Tabular::content`, `columnConstraints` is `Tabular::column_constraints`,
`columnNamesQ` is `Tabular::column_names`. -/
structure TabularImpl (α : Type) (V : Type) where
  cmpByCol : α → α → Nat → Ordering
  value : α → V
  content : α → List String
  columnConstraints : List (Nat → Constraint)
  columnNamesQ : Option (List String)

/-- Models the `IndexedRow<T>` wrapper struct. -/
structure IndexedRow (α : Type) where
  idx : Nat
  data : α
deriving DecidableEq, Repr

/-- Models `Iterator::enumerate` starting at `n`. -/
def enumIdx (n : Nat) : List α → List (Nat × α)
  | [] => []
  | x :: xs => (n, x) :: enumIdx (n + 1) xs

/-- Models `IndexedRow::from`: wrap each row with its position in the input. -/
def IndexedRow.fromList (data : List α) : List (IndexedRow α) :=
  (enumIdx 0 data).map fun p => ⟨p.1, p.2⟩

/-- Models `impl Tabular for IndexedRow<T>`: content gains a leading ordinal
cell, column metadata gains a leading column, comparisons are shifted by one
and column 0 always compares `Equal`. -/
def IndexedRow.impl (t : TabularImpl α V) : TabularImpl (IndexedRow α) V where
  cmpByCol a b col := if col = 0 then Ordering.eq else t.cmpByCol a.data b.data (col - 1)
  value a := t.value a.data
  content a := toString a.idx :: t.content a.data
  columnConstraints := Constraint.length :: t.columnConstraints
  columnNamesQ := t.columnNamesQ.map fun ns => "#" :: ns

/-- Models `itertools::Itertools::interleave`: alternate elements starting
with the first list; once one list is exhausted, yield the rest of the other. -/
def interleave : List γ → List γ → List γ
  | [], ys => ys
  | x :: xs, [] => x :: xs
  | x :: xs, y :: ys => x :: y :: interleave xs ys

/-- Models `StatefulTable::columns_max_widths`: per-column maximum of the
content lengths over all rows and (when present) the header names. -/
def columnsMaxWidths (t : TabularImpl α V) (data : List α) : List Nat :=
  let d0 := data.map t.content
  let d := match t.columnNamesQ with
    | some h => d0 ++ [h]
    | none => d0
  match d.map (fun row => row.map String.length) with
  | [] => []
  | w :: ws => ws.foldl (fun a b => List.zipWith Nat.max a b) w

/-- Models `StatefulTable::build_rows` at the level of cell content (the
display strings of each built row; styling does not affect state). -/
def buildRows (t : TabularImpl α V) (data : List α) : List (List String) :=
  data.map t.content

/-- Models the state-relevant fields of `StatefulTable`:
`data`, the built display rows (their cell strings), `state.selected()`,
`state.selected_column()`, `selected_col_ord`, `values`, the cached
interleaved `col_constraints`, `inner_width` and the `indexed` flag. -/
structure StatefulTable (α : Type) (V : Type) where
  data : List α
  rows : List (List String)
  selected : Option Nat
  selectedCol : Option Nat
  selectedColOrd : Ordering
  values : List V
  colConstraints : List Constraint
  innerWidth : Nat
  indexed : Bool

/-- Models `StatefulTable::build_table`.  Returns `none` when the Rust code
panics: with zero columns, `constraints.len() - 1` underflows `usize` in
`vec![Constraint::Length(spacing); constraints.len() - 1]`. -/
def buildTable (t : TabularImpl α V) (data : List α) (selectedInit : Option Nat)
    (columnSpacing : Nat) (indexed : Bool) : Option (StatefulTable α V) :=
  let values := data.map t.value
  let selected := selectedInit.map fun idx => min idx (data.length - 1)
  let colWidths := columnsMaxWidths t data
  let constraints := (colWidths.zip t.columnConstraints).map fun p => p.2 p.1
  if constraints.length = 0 then
    none
  else
    let gaps := List.replicate (constraints.length - 1) (Constraint.length columnSpacing)
    some { data := data
           rows := buildRows t data
           selected := selected
           selectedCol := none
           selectedColOrd := Ordering.eq
           values := values
           colConstraints := interleave constraints gaps
           innerWidth := colWidths.foldl (· + ·) 0 + columnSpacing * (colWidths.length - 1)
           indexed := indexed }

/-- Models `StatefulTable::rows_count`. -/
def rowsCount (s : StatefulTable α V) : Nat :=
  s.values.length

/-- Models `StatefulTable::selected_row`. -/
def selectedRow (s : StatefulTable α V) : Option Nat :=
  s.selected

/-- Models `StatefulTable::selected_value`. -/
def selectedValue (s : StatefulTable α V) : Option V :=
  s.selected.bind fun i => s.values.get? i

/-- Models `StatefulTable::select_absolute`:
`idx.clamp(0, rows_count().saturating_sub(1))`. -/
def selectAbsolute (s : StatefulTable α V) (idx : Nat) : StatefulTable α V :=
  { s with selected := some (min idx (rowsCount s - 1)) }

/-- Models `StatefulTable::select_relative`. -/
def selectRelative (s : StatefulTable α V) (offset : Int) : StatefulTable α V :=
  let new := match s.selected with
    | none => 0
    | some curr => if offset < 0 then curr - offset.natAbs else curr + offset.natAbs
  selectAbsolute s new

/-- Models `StatefulTable::select_next`. -/
def selectNext (s : StatefulTable α V) : StatefulTable α V :=
  selectRelative s 1

/-- Models `StatefulTable::select_prev`. -/
def selectPrev (s : StatefulTable α V) : StatefulTable α V :=
  selectRelative s (-1)

/-- Models `StatefulTable::select_next_page`; `h` stands for
`self.rows_area().height`, geometry recorded at draw time. -/
def selectNextPage (s : StatefulTable α V) (h : Nat) : StatefulTable α V :=
  selectRelative s (Int.ofNat h)

/-- Models `StatefulTable::select_prev_page`; `h` stands for
`self.rows_area().height`. -/
def selectPrevPage (s : StatefulTable α V) (h : Nat) : StatefulTable α V :=
  selectRelative s (-(Int.ofNat h))

/-- Models `StatefulTable::select_absolute_col`: clamp the index against the
cached interleaved `col_constraints` list, update the sort-direction state,
then select the column. -/
def selectAbsoluteCol (s : StatefulTable α V) (idx : Nat) : StatefulTable α V :=
  let idx := min idx (s.colConstraints.length - 1)
  let ord := match s.selectedCol with
    | some old =>
        if old ≠ idx then Ordering.eq
        else
          match s.selectedColOrd with
          | Ordering.lt => Ordering.eq
          | Ordering.eq => Ordering.gt
          | Ordering.gt => Ordering.lt
    | none => Ordering.eq
  { s with selectedCol := some idx, selectedColOrd := ord }

/-- Models `StatefulTable::select_relative_col`. -/
def selectRelativeCol (s : StatefulTable α V) (offset : Int) : StatefulTable α V :=
  let new := match s.selectedCol with
    | none => 0
    | some curr => if offset < 0 then curr - offset.natAbs else curr + offset.natAbs
  selectAbsoluteCol s new

/-- Models `StatefulTable::select_next_col`. -/
def selectNextCol (s : StatefulTable α V) : StatefulTable α V :=
  selectRelativeCol s 1

/-- Models `StatefulTable::select_prev_col`. -/
def selectPrevCol (s : StatefulTable α V) : StatefulTable α V :=
  selectRelativeCol s (-1)

/-- Models the `TableCommand` enumeration. -/
inductive TableCommand where
  | goDown
  | goUp
  | goDownCycle
  | goUpCycle
  | goPageDown
  | goPageUp
  | goHalfPageDown
deriving DecidableEq, Repr

/-- Models the key-command dispatch inside `StatefulTable::update`; `h`
stands for `self.rows_area().height`.  Returns `none` where the Rust code
panics: in the cycle commands, `self.rows_count() - 1` underflows `usize`
when the table is empty and a row is selected. -/
def updateCmd (s : StatefulTable α V) (cmd : TableCommand) (h : Nat) :
    Option (StatefulTable α V) :=
  match cmd with
  | TableCommand.goDown => some (selectNext s)
  | TableCommand.goUp => some (selectPrev s)
  | TableCommand.goDownCycle =>
      match s.selected with
      | some idx =>
          if rowsCount s = 0 then none
          else if idx = rowsCount s - 1 then some (selectAbsolute s 0)
          else some (selectNext s)
      | none => some s
  | TableCommand.goUpCycle =>
      match s.selected with
      | some idx =>
          if idx = 0 then
            if rowsCount s = 0 then none
            else some (selectAbsolute s (rowsCount s - 1))
          else some (selectPrev s)
      | none => some s
  | TableCommand.goPageDown => some (selectNextPage s h)
  | TableCommand.goPageUp => some (selectPrevPage s h)
  | TableCommand.goHalfPageDown => some (selectRelative s (Int.ofNat (h / 2)))

/-- Stable insertion step: place `x` before the first element `y` with
`c x y ≠ gt`. -/
def insertOrd (c : γ → γ → Ordering) (x : γ) : List γ → List γ
  | [] => [x]
  | y :: ys => if c x y = Ordering.gt then y :: insertOrd c x ys else x :: y :: ys

/-- Models Rust's stable `slice::sort_by` as a stable insertion sort.
For a total comparator, sortedness plus stability determine the output of
any stable comparison sort, so this is extensionally faithful to the
source's stable sort. -/
def sortByOrd (c : γ → γ → Ordering) : List γ → List γ
  | [] => []
  | x :: xs => insertOrd c x (sortByOrd c xs)

/-- Models the direction dispatch of `StatefulTable::sort_rows` (lines
139-143): `Less` sorts by `a.cmp_by_col(b, col)`, `Greater` sorts with the
operands swapped, `Equal` leaves the pairing untouched. -/
def sortRowsPairs (cmp : β → β → Ordering) (ord : Ordering)
    (pairs : List (β × W)) : List (β × W) :=
  match ord with
  | Ordering.lt => sortByOrd (fun a b => cmp a.1 b.1) pairs
  | Ordering.gt => sortByOrd (fun a b => cmp b.1 a.1) pairs
  | Ordering.eq => pairs

/-- Models `StatefulTable::sort_rows` on a table built by `new` (where
`self.indexed` is false, so the `indexed && col == 0` early return cannot
fire): zip data with values, sort the pairs by direction, rebuild the
display rows from the sorted data and store the sorted values.  Note:
exactly as in the source, `self.data` is left unchanged. -/
def sortRows (t : TabularImpl α V) (s : StatefulTable α V) : StatefulTable α V :=
  match s.selectedCol with
  | none => s
  | some col =>
      let sorted := sortRowsPairs (fun a b => t.cmpByCol a b col) s.selectedColOrd
        (s.data.zip s.values)
      { s with rows := buildRows t (sorted.map Prod.fst)
               values := sorted.map Prod.snd }

/-- Models `StatefulTable::sort_rows` on a table built by `new_indexed`
(where `self.indexed` is true): selecting column 0 returns immediately;
otherwise sort the pairs, strip the wrappers (`T::data`), re-wrap with fresh
ordinals (`IndexedRow::from`) and rebuild the display rows from that.
`self.data` is left unchanged, as in the source. -/
def sortRowsIndexed (t : TabularImpl α V) (s : StatefulTable (IndexedRow α) V) :
    StatefulTable (IndexedRow α) V :=
  match s.selectedCol with
  | none => s
  | some col =>
      if col = 0 then s
      else
        let sorted := sortRowsPairs (fun a b => (IndexedRow.impl t).cmpByCol a b col)
          s.selectedColOrd (s.data.zip s.values)
        let dedup := (sorted.map Prod.fst).map IndexedRow.data
        { s with rows := buildRows (IndexedRow.impl t) (IndexedRow.fromList dedup)
                 values := sorted.map Prod.snd }

/-- A concrete two-column `Tabular` implementation with no header, used to
evaluate the model on concrete inputs: content is the row itself, the value
is `"v"` prepended to the first cell, and columns compare their cell strings. -/
def rowNoHeaderImpl : TabularImpl (List String) String where
  cmpByCol a b c := compare (a.getD c "") (b.getD c "")
  value r := String.append "v" (r.headD "")
  content r := r
  columnConstraints := [Constraint.length, Constraint.length]
  columnNamesQ := none

/-- The same concrete implementation with column names, so that a table can
be built from an empty row vector (the header keeps the column list
non-empty). -/
def rowHeaderImpl : TabularImpl (List String) String where
  cmpByCol a b c := compare (a.getD c "") (b.getD c "")
  value r := String.append "v" (r.headD "")
  content r := r
  columnConstraints := [Constraint.length, Constraint.length]
  columnNamesQ := some ["A", "B"]

/-- A concrete two-row table state used as a witness input. -/
def sampleTable : StatefulTable (List String) String where
  data := [["a", "x"], ["b", "y"]]
  rows := [["a", "x"], ["b", "y"]]
  selected := none
  selectedCol := none
  selectedColOrd := Ordering.eq
  values := ["va", "vb"]
  colConstraints := [Constraint.length 1, Constraint.length 1, Constraint.length 1]
  innerWidth := 3
  indexed := false

/-- A concrete empty table state (zero rows) used as a witness input. -/
def emptyTable : StatefulTable (List String) String where
  data := []
  rows := []
  selected := none
  selectedCol := none
  selectedColOrd := Ordering.eq
  values := []
  colConstraints := [Constraint.length 1, Constraint.length 1, Constraint.length 1]
  innerWidth := 3
  indexed := false

/-- A concrete table state with column 0 selected and direction `Equal`,
used as a witness input for the sort-direction cycle. -/
def sampleColTable : StatefulTable (List String) String where
  data := [["a", "x"], ["b", "y"]]
  rows := [["a", "x"], ["b", "y"]]
  selected := none
  selectedCol := some 0
  selectedColOrd := Ordering.eq
  values := ["va", "vb"]
  colConstraints := [Constraint.length 1, Constraint.length 1, Constraint.length 1]
  innerWidth := 3
  indexed := false

/-- A concrete one-row table with its only row selected, used as a witness
input for the wrap-cycle commands. -/
def oneRowTable : StatefulTable (List String) String where
  data := [["a"]]
  rows := [["a"]]
  selected := some 0
  selectedCol := none
  selectedColOrd := Ordering.eq
  values := ["va"]
  colConstraints := [Constraint.length 1]
  innerWidth := 1
  indexed := false

/-- C7: for every non-empty table and every index `idx`, `select_absolute(idx)`
followed by `selected_row()` returns `some (min idx (row_count - 1))`. -/
theorem C7_select_absolute_clamps (s : StatefulTable α V) (idx : Nat)
    (_hn : 1 ≤ rowsCount s) :
    selectedRow (selectAbsolute s idx) = some (min idx (rowsCount s - 1)) :=
  rfl

/-- Witness for C7 on a concrete two-row table at index 5. -/
theorem C7_witness :
    1 ≤ rowsCount sampleTable
    ∧ selectedRow (selectAbsolute sampleTable 5)
        = some (min 5 (rowsCount sampleTable - 1)) :=
  ⟨by decide, C7_select_absolute_clamps sampleTable 5 (by decide)⟩

/-- C10: when no row is selected, `select_relative` (for every offset) and
the operations derived from it (`select_next`, `select_prev`, and the page
moves for every viewport height) all select row 0 rather than leaving the
selection empty. -/
theorem C10_no_selection_selects_row_zero (s : StatefulTable α V)
    (offset : Int) (h : Nat) (hnone : s.selected = none) :
    selectedRow (selectRelative s offset) = some 0
    ∧ selectedRow (selectNext s) = some 0
    ∧ selectedRow (selectPrev s) = some 0
    ∧ selectedRow (selectNextPage s h) = some 0
    ∧ selectedRow (selectPrevPage s h) = some 0 := by
  refine ⟨?_, ?_, ?_, ?_, ?_⟩ <;>
    simp [selectRelative, selectNext, selectPrev, selectNextPage, selectPrevPage,
      selectAbsolute, selectedRow, hnone, Nat.zero_min]

/-- Witness for C10 on a concrete table with no selection. -/
theorem C10_witness :
    sampleTable.selected = none
    ∧ (selectedRow (selectRelative sampleTable 7) = some 0
       ∧ selectedRow (selectNext sampleTable) = some 0
       ∧ selectedRow (selectPrev sampleTable) = some 0
       ∧ selectedRow (selectNextPage sampleTable 3) = some 0
       ∧ selectedRow (selectPrevPage sampleTable 3) = some 0) :=
  ⟨rfl, C10_no_selection_selects_row_zero sampleTable 7 3 rfl⟩

/-- C2 counterexample: on a table built from an empty row vector with no
selected row, `select_next()` is not a no-op — `selected_row()` becomes
`some 0`, not `none` as the claim states. -/
theorem C2_counterexample :
    ((buildTable rowHeaderImpl ([] : List (List String)) none 1 false).map
        fun s => selectedRow (selectNext s)) = some (some 0)
    ∧ some 0 ≠ (none : Option Nat) :=
  ⟨by decide, by decide⟩

/-- C2 amended: on every table with row count 0 and no selected row,
`select_next()` sets the selection to row 0 (`selected_row()` returns
`some 0`). -/
theorem C2_empty_select_next (s : StatefulTable α V)
    (_h0 : rowsCount s = 0) (hnone : s.selected = none) :
    selectedRow (selectNext s) = some 0 := by
  simp [selectNext, selectRelative, selectAbsolute, selectedRow, hnone, Nat.zero_min]

/-- Witness for the amended C2 on a concrete empty table. -/
theorem C2_witness :
    (rowsCount emptyTable = 0 ∧ emptyTable.selected = none)
    ∧ selectedRow (selectNext emptyTable) = some 0 :=
  ⟨⟨rfl, rfl⟩, C2_empty_select_next emptyTable rfl rfl⟩

/-- C1 counterexample: on a freshly built table, selecting column 0 (which
sets direction `Equal`) and then re-selecting the same column advances the
direction to `Greater`, not `Less` as the claim states. -/
theorem C1_counterexample :
    ((buildTable rowNoHeaderImpl [["x", "y"]] none 1 false).map
        fun s => (selectAbsoluteCol (selectAbsoluteCol s 0) 0).selectedColOrd)
      = some Ordering.gt
    ∧ Ordering.gt ≠ Ordering.lt :=
  ⟨by decide, by decide⟩

/-- C1 amended: re-selecting the currently selected column via
`select_absolute_col` advances the sort direction along the cycle
Equal → Greater (descending) → Less (ascending) → Equal — in particular a
first re-selection from Equal yields Greater — while selecting a different
column resets the direction to Equal, and the column becomes selected. -/
theorem C1_sort_direction_cycle (s : StatefulTable α V) (idx : Nat)
    (hidx : idx < s.colConstraints.length) :
    (selectAbsoluteCol s idx).selectedCol = some idx
    ∧ (s.selectedCol = some idx →
        (selectAbsoluteCol s idx).selectedColOrd =
          match s.selectedColOrd with
          | Ordering.eq => Ordering.gt
          | Ordering.gt => Ordering.lt
          | Ordering.lt => Ordering.eq)
    ∧ (∀ old, s.selectedCol = some old → old ≠ idx →
        (selectAbsoluteCol s idx).selectedColOrd = Ordering.eq) := by
  have hmin : min idx (s.colConstraints.length - 1) = idx :=
    Nat.min_eq_left (by omega)
  refine ⟨?_, ?_, ?_⟩
  · simp [selectAbsoluteCol, hmin]
  · intro hsel
    cases hord : s.selectedColOrd <;> simp [selectAbsoluteCol, hmin, hsel, hord]
  · intro old hsel hne
    simp [selectAbsoluteCol, hmin, hsel, hne]

/-- Witness for the amended C1 on a concrete table with column 0 selected. -/
theorem C1_witness :
    0 < sampleColTable.colConstraints.length
    ∧ ((selectAbsoluteCol sampleColTable 0).selectedCol = some 0
       ∧ (sampleColTable.selectedCol = some 0 →
           (selectAbsoluteCol sampleColTable 0).selectedColOrd =
             match sampleColTable.selectedColOrd with
             | Ordering.eq => Ordering.gt
             | Ordering.gt => Ordering.lt
             | Ordering.lt => Ordering.eq)
       ∧ (∀ old, sampleColTable.selectedCol = some old → old ≠ 0 →
           (selectAbsoluteCol sampleColTable 0).selectedColOrd = Ordering.eq)) :=
  ⟨by decide, C1_sort_direction_cycle sampleColTable 0 (by decide)⟩

/-- Membership in `insertOrd` is membership in the original list plus the
inserted element. -/
theorem mem_insertOrd {c : γ → γ → Ordering} {x z : γ} :
    ∀ {ys : List γ}, z ∈ insertOrd c x ys ↔ z = x ∨ z ∈ ys := by
  intro ys
  induction ys with
  | nil => simp [insertOrd]
  | cons y ys ih =>
    simp only [insertOrd]
    by_cases h : c x y = Ordering.gt
    · rw [if_pos h]
      simp only [List.mem_cons, ih]
      tauto
    · rw [if_neg h]
      simp only [List.mem_cons]

/-- `sortByOrd` permutes: membership is preserved. -/
theorem mem_sortByOrd {c : γ → γ → Ordering} {z : γ} :
    ∀ {l : List γ}, z ∈ sortByOrd c l ↔ z ∈ l := by
  intro l
  induction l with
  | nil => simp [sortByOrd]
  | cons x xs ih => simp [sortByOrd, mem_insertOrd, ih]

/-- Inserting `x` preserves a pairwise relation `R`, provided `R y x` holds
for every element `x` is placed after (those it compares `gt` against) and
`R x y` holds for every element it may be placed before. -/
theorem pairwise_insertOrd {R : γ → γ → Prop} {c : γ → γ → Ordering} {x : γ} :
    ∀ {ys : List γ}, (∀ y ∈ ys, c x y = Ordering.gt → R y x) →
      (∀ y ∈ ys, R x y) → ys.Pairwise R → (insertOrd c x ys).Pairwise R := by
  intro ys
  induction ys with
  | nil =>
    intro _ _ _
    simp [insertOrd]
  | cons y ys ih =>
    intro hgt hle hp
    rw [List.pairwise_cons] at hp
    obtain ⟨hy, hys⟩ := hp
    simp only [insertOrd]
    by_cases h : c x y = Ordering.gt
    · rw [if_pos h, List.pairwise_cons]
      constructor
      · intro z hz
        rw [mem_insertOrd] at hz
        rcases hz with rfl | hz
        · exact hgt y (List.mem_cons_self y ys) h
        · exact hy z hz
      · exact ih (fun v hv => hgt v (List.mem_cons_of_mem _ hv))
          (fun v hv => hle v (List.mem_cons_of_mem _ hv)) hys
    · rw [if_neg h, List.pairwise_cons]
      exact ⟨hle, List.pairwise_cons.mpr ⟨hy, hys⟩⟩

/-- The stable sort preserves any pairwise relation `R` of the input whose
violations are excluded on strict comparisons: if `c a b = gt` forces
`R b a`, sorting keeps `R` pairwise (this is stability, phrased on `R`). -/
theorem pairwise_sortByOrd {R : γ → γ → Prop} {c : γ → γ → Ordering}
    (hgt : ∀ a b, c a b = Ordering.gt → R b a) :
    ∀ {l : List γ}, l.Pairwise R → (sortByOrd c l).Pairwise R := by
  intro l
  induction l with
  | nil =>
    intro _
    simp [sortByOrd]
  | cons x xs ih =>
    intro hp
    rw [List.pairwise_cons] at hp
    obtain ⟨hx, hxs⟩ := hp
    simp only [sortByOrd]
    exact pairwise_insertOrd (fun y _ hc => hgt x y hc)
      (fun y hy => hx y (mem_sortByOrd.mp hy)) (ih hxs)

/-- C5: the sorting performed by `sort_rows` is stable in both directions.
Tag each (row, value) pair with its pre-sort position as the value: whenever
the comparator on the rows returns `Equal`, the tags still appear in
increasing order after sorting with direction `Less` and after sorting with
direction `Greater` (which swaps the comparator's operands); and the
`Greater` result is not the reversal of the `Less` result (a concrete
equal-key pair distinguishes them). -/
theorem C5_sorting_stable (cmp : β → β → Ordering) (l : List (β × Nat))
    (hsym : ∀ a b, cmp a b = Ordering.eq → cmp b a = Ordering.eq)
    (htags : l.Pairwise fun p q => p.2 < q.2) :
    ((sortRowsPairs cmp Ordering.lt l).Pairwise
        fun p q => cmp p.1 q.1 = Ordering.eq → p.2 < q.2)
    ∧ ((sortRowsPairs cmp Ordering.gt l).Pairwise
        fun p q => cmp p.1 q.1 = Ordering.eq → p.2 < q.2)
    ∧ sortRowsPairs (fun a b : Nat => compare a b) Ordering.gt [(0, 0), (0, 1)]
        ≠ (sortRowsPairs (fun a b : Nat => compare a b) Ordering.lt
            [(0, 0), (0, 1)]).reverse := by
  have hR : l.Pairwise fun p q : β × Nat => cmp p.1 q.1 = Ordering.eq → p.2 < q.2 :=
    htags.imp fun h => fun _ => h
  refine ⟨?_, ?_, by decide⟩
  · apply pairwise_sortByOrd ?_ hR
    intro p q hpq heq
    have h2 := hsym _ _ heq
    rw [h2] at hpq
    exact absurd hpq (by decide)
  · apply pairwise_sortByOrd ?_ hR
    intro p q hpq heq
    rw [heq] at hpq
    exact absurd hpq (by decide)

/-- A comparator on a small finite row type, for evaluating the sort model. -/
def finCmp : Fin 3 → Fin 3 → Ordering :=
  fun a b => compare a.val b.val

/-- A concrete tagged pair list with a duplicate key, for evaluating the
sort model. -/
def stableList : List (Fin 3 × Nat) :=
  [(2, 0), (1, 1), (2, 2)]

/-- Witness for C5 on a concrete list with a duplicated key. -/
theorem C5_witness :
    ((∀ a b : Fin 3, finCmp a b = Ordering.eq → finCmp b a = Ordering.eq)
      ∧ stableList.Pairwise fun p q => p.2 < q.2)
    ∧ (((sortRowsPairs finCmp Ordering.lt stableList).Pairwise
          fun p q => finCmp p.1 q.1 = Ordering.eq → p.2 < q.2)
       ∧ ((sortRowsPairs finCmp Ordering.gt stableList).Pairwise
          fun p q => finCmp p.1 q.1 = Ordering.eq → p.2 < q.2)
       ∧ sortRowsPairs (fun a b : Nat => compare a b) Ordering.gt [(0, 0), (0, 1)]
          ≠ (sortRowsPairs (fun a b : Nat => compare a b) Ordering.lt
              [(0, 0), (0, 1)]).reverse) :=
  ⟨⟨by decide, by decide⟩, C5_sorting_stable finCmp stableList (by decide) (by decide)⟩

/-- C3 (bug evaluation): on a table with 2 columns, `select_absolute_col(5)`
clamps against the cached interleaved `col_constraints` list (length 2·2−1=3),
leaving `selected_col = some 2`, which is not `< column_count = 2`. -/
theorem C3_bug_eval :
    ((buildTable rowNoHeaderImpl [["x", "y"]] none 1 false).map
        fun s => (selectAbsoluteCol s 5).selectedCol) = some (some 2)
    ∧ rowNoHeaderImpl.columnConstraints.length = 2
    ∧ ¬ 2 < rowNoHeaderImpl.columnConstraints.length :=
  ⟨by decide, by decide, by decide⟩

/-- C4 (bug evaluation): `columns_max_widths` on an empty row vector (no
header) does return zero columns, but `build_table` then panics computing
`constraints.len() - 1` (modelled as `none`), so construction does not
succeed. -/
theorem C4_bug_eval :
    buildTable rowNoHeaderImpl ([] : List (List String)) none 1 false = none
    ∧ columnsMaxWidths rowNoHeaderImpl ([] : List (List String)) = [] :=
  ⟨rfl, rfl⟩

/-- C6 counterexample: a table built from an empty row vector carries
`selected_row() = some 0` (the constructor clamps the initial selection),
and dispatching `GoUpCycle` there panics (`rows_count() - 1` underflows,
modelled as `none`) instead of moving the selection to the last row. -/
theorem C6_counterexample :
    ((buildTable rowHeaderImpl ([] : List (List String)) (some 0) 1 false).map
        fun s => selectedRow s) = some (some 0)
    ∧ ((buildTable rowHeaderImpl ([] : List (List String)) (some 0) 1 false).bind
        fun s => updateCmd s TableCommand.goUpCycle 0) = none :=
  ⟨rfl, rfl⟩

/-- C6 amended: for every row count ≥ 1 (and every viewport height),
`GoDownCycle` at the last row moves the selection to row 0, `GoUpCycle` at
row 0 moves it to the last row, and plain `GoDown` at the last row leaves it
at the last row. -/
theorem C6_wrap_cycle_navigation (s : StatefulTable α V) (h : Nat)
    (hn : 1 ≤ rowsCount s) :
    (s.selected = some (rowsCount s - 1) →
       (updateCmd s TableCommand.goDownCycle h).map selectedRow = some (some 0))
    ∧ (s.selected = some 0 →
       (updateCmd s TableCommand.goUpCycle h).map selectedRow
         = some (some (rowsCount s - 1)))
    ∧ (s.selected = some (rowsCount s - 1) →
       (updateCmd s TableCommand.goDown h).map selectedRow
         = some (some (rowsCount s - 1))) := by
  have hne : ¬ rowsCount s = 0 := by omega
  refine ⟨?_, ?_, ?_⟩
  · intro hsel
    simp [updateCmd, hsel, hne, selectAbsolute, selectedRow, Nat.zero_min]
  · intro hsel
    simp [updateCmd, hsel, hne, selectAbsolute, selectedRow]
  · intro hsel
    have harith : min (rowsCount s - 1 + 1) (rowsCount s - 1) = rowsCount s - 1 := by
      omega
    simp [updateCmd, selectNext, selectRelative, hsel, selectAbsolute, selectedRow,
      Int.natAbs_one, harith]

/-- Witness for the amended C6 on a concrete one-row table with its only row
(which is both row 0 and the last row) selected. -/
theorem C6_witness :
    1 ≤ rowsCount oneRowTable
    ∧ ((oneRowTable.selected = some (rowsCount oneRowTable - 1) →
         (updateCmd oneRowTable TableCommand.goDownCycle 4).map selectedRow
           = some (some 0))
       ∧ (oneRowTable.selected = some 0 →
         (updateCmd oneRowTable TableCommand.goUpCycle 4).map selectedRow
           = some (some (rowsCount oneRowTable - 1)))
       ∧ (oneRowTable.selected = some (rowsCount oneRowTable - 1) →
         (updateCmd oneRowTable TableCommand.goDown 4).map selectedRow
           = some (some (rowsCount oneRowTable - 1)))) :=
  ⟨by decide, C6_wrap_cycle_navigation oneRowTable 4 (by decide)⟩

/-- C9 (bug evaluation): build a two-row table with rows `["a"]`, `["b"]`
(values `"va"`, `"vb"`), row 0 selected; select column 0 and re-sort three
times (direction Equal, then Greater, then Less).  The final display shows
row `["a"]` at index 0 — whose value is `"va"` — but `selected_value()`
returns `"vb"`: `sort_rows` never writes the sorted rows back to
`self.data`, so the second and later sorts pair the stale row order with the
already-permuted values and the two collections fall out of sync. -/
theorem C9_bug_eval :
    ((buildTable rowNoHeaderImpl [["a"], ["b"]] (some 0) 1 false).map fun s0 =>
      let s1 := sortRows rowNoHeaderImpl (selectAbsoluteCol s0 0)
      let s2 := sortRows rowNoHeaderImpl (selectAbsoluteCol s1 0)
      let s3 := sortRows rowNoHeaderImpl (selectAbsoluteCol s2 0)
      (s3.rows, selectedValue s3, rowNoHeaderImpl.value ["a"]))
      = some ([["a"], ["b"]], some "vb", "va")
    ∧ ("vb" : String) ≠ "va" :=
  ⟨by decide, by decide⟩

/-- `enumIdx` preserves length. -/
theorem enumIdx_length : ∀ (n : Nat) (L : List α), (enumIdx n L).length = L.length := by
  intro n L
  induction L generalizing n with
  | nil => rfl
  | cons x xs ih => simp [enumIdx, ih]

/-- The enumeration indices produced by `enumIdx n` are `n, n+1, ...`. -/
theorem enumIdx_toString_heads :
    ∀ (n : Nat) (L : List α),
      ((enumIdx n L).map fun p => some (toString p.1))
        = (List.range' n L.length).map fun i => some (toString i) := by
  intro n L
  induction L generalizing n with
  | nil => rfl
  | cons x xs ih => simp [enumIdx, List.range'_succ n xs.length 1, ih]

/-- The display rows rebuilt from `IndexedRow::from` of any row list have
ordinal cells reading `0, 1, ..., n-1` in display order. -/
theorem indexed_rows_heads (t : TabularImpl α V) (L : List α) :
    (buildRows (IndexedRow.impl t) (IndexedRow.fromList L)).map (fun r => r.head?)
      = (List.range ((buildRows (IndexedRow.impl t) (IndexedRow.fromList L)).length)).map
          fun i => some (toString i) := by
  have hlen : (buildRows (IndexedRow.impl t) (IndexedRow.fromList L)).length = L.length := by
    simp [buildRows, IndexedRow.fromList, enumIdx_length]
  rw [hlen, List.range_eq_range']
  simp only [buildRows, IndexedRow.fromList, List.map_map]
  have hmaps :
      ((fun r : List String => r.head?) ∘ (IndexedRow.impl t).content ∘
          fun p : Nat × α => (⟨p.1, p.2⟩ : IndexedRow α))
        = fun p : Nat × α => some (toString p.1) := by
    funext p
    rfl
  rw [hmaps]
  exact enumIdx_toString_heads 0 L

/-- A concrete indexed table (two rows, values `"vb"`, `"va"`) with the
ordinal column selected, used as a witness input. -/
def idxTable0 : StatefulTable (IndexedRow (List String)) String where
  data := IndexedRow.fromList [["b"], ["a"]]
  rows := [["0", "b"], ["1", "a"]]
  selected := none
  selectedCol := some 0
  selectedColOrd := Ordering.gt
  values := ["vb", "va"]
  colConstraints := [Constraint.length 1, Constraint.length 1, Constraint.length 1]
  innerWidth := 3
  indexed := true

/-- The same concrete indexed table with data column 1 selected ascending. -/
def idxTable1 : StatefulTable (IndexedRow (List String)) String where
  data := IndexedRow.fromList [["b"], ["a"]]
  rows := [["0", "b"], ["1", "a"]]
  selected := none
  selectedCol := some 1
  selectedColOrd := Ordering.lt
  values := ["vb", "va"]
  colConstraints := [Constraint.length 1, Constraint.length 1, Constraint.length 1]
  innerWidth := 3
  indexed := true

/-- C8: for index-wrapped tables, `IndexedRow`'s comparison at column 0 is
always `Equal`; selecting column 0 performs no re-sort (`sort_rows` returns
the table unchanged); and after every sort on another column the ordinal
(leading) column of the rebuilt display rows reads the contiguous sequence
`0..n` in the new display order. -/
theorem C8_indexed_ordinals (t : TabularImpl α V) (a b : IndexedRow α)
    (s s' : StatefulTable (IndexedRow α) V) (c : Nat)
    (h0 : s.selectedCol = some 0)
    (h1 : s'.selectedCol = some c) (hc : c ≠ 0) :
    (IndexedRow.impl t).cmpByCol a b 0 = Ordering.eq
    ∧ sortRowsIndexed t s = s
    ∧ (sortRowsIndexed t s').rows.map (fun r => r.head?)
        = (List.range ((sortRowsIndexed t s').rows.length)).map
            fun i => some (toString i) := by
  refine ⟨rfl, ?_, ?_⟩
  · simp [sortRowsIndexed, h0]
  · simp only [sortRowsIndexed, h1]
    rw [if_neg hc]
    exact indexed_rows_heads t _

/-- Witness for C8 on the concrete indexed tables. -/
theorem C8_witness :
    (idxTable0.selectedCol = some 0 ∧ idxTable1.selectedCol = some 1 ∧ (1 : Nat) ≠ 0)
    ∧ ((IndexedRow.impl rowNoHeaderImpl).cmpByCol ⟨0, ["p"]⟩ ⟨1, ["q"]⟩ 0 = Ordering.eq
       ∧ sortRowsIndexed rowNoHeaderImpl idxTable0 = idxTable0
       ∧ (sortRowsIndexed rowNoHeaderImpl idxTable1).rows.map (fun r => r.head?)
           = (List.range ((sortRowsIndexed rowNoHeaderImpl idxTable1).rows.length)).map
               fun i => some (toString i)) :=
  ⟨⟨rfl, rfl, by decide⟩,
   C8_indexed_ordinals rowNoHeaderImpl ⟨0, ["p"]⟩ ⟨1, ["q"]⟩ idxTable0 idxTable1 1
     rfl rfl (by decide)⟩

end RatatuiHelpers
